import Mathlib

/-!
# Verification of the architecture-memory plugin (store + diagram renderers)

Shallow embedding of `src/index.js` (tools + renderers) and `src/store.js`
(the persistent architecture store) of the goose-plugins architecture plugin.

JavaScript objects used as string-keyed mappings (`store.systems`,
`store.people`) are modelled as insertion-ordered association lists
`List (String × _)`; `obj[key] = v` is `upsert`, which replaces the value at
the first occurrence of the key (preserving its position, as JS property
assignment does) or appends a fresh entry.  Arrays are `List`.  `null` /
absent values are `Option`.  A thrown JS exception is `Except.error`.
Filesystem persistence (`save`) has no effect on the in-memory state and is
not modelled; `load`'s input is modelled as the `Option Json` outcome of
`fs.readFileSync` + `JSON.parse` (`none` = the read or the parse threw).
The association-list model reflects JS object key order for the string keys
this plugin uses; the exotic JS rule that integer-like property names
enumerate first is not modelled.
-/

namespace ArchPlugin

/-- An entry of `store.systems`: `{ label, description, external }`
(`src/store.js`, `addSystem`). -/
structure System where
  label : String
  description : String
  external : Bool
  deriving DecidableEq, Repr

/-- An entry of `store.people`: `{ label, description }`
(`src/store.js`, `addPerson`). -/
structure Person where
  label : String
  description : String
  deriving DecidableEq, Repr

/-- An entry of `store.relationships`: `{ from, to, label }`
(`src/store.js`, `addRelationship`). -/
structure Relationship where
  «from» : String
  «to» : String
  label : String
  deriving DecidableEq, Repr

/-- The in-memory store `{ systems, people, relationships }` of `src/store.js`. -/
structure Store where
  systems : List (String × System)
  people : List (String × Person)
  relationships : List Relationship
  deriving DecidableEq, Repr

/-- `emptyStore()` of `src/store.js`. -/
def emptyStore : Store := { systems := [], people := [], relationships := [] }

/-- A JavaScript value, as far as the `external` argument of `addSystem` is
concerned (`Boolean(external)` accepts any value; numbers are modelled as
integers since no float arithmetic is involved). -/
inductive JSValue where
  | undef : JSValue
  | null : JSValue
  | bool (b : Bool) : JSValue
  | num (n : Int) : JSValue
  | str (s : String) : JSValue
  deriving DecidableEq, Repr

/-- JavaScript `Boolean(v)`: truthiness of a value.  `undefined`, `null`,
`false`, `0` and the empty string are falsy; everything else is truthy. -/
def JSValue.truthy : JSValue → Bool
  | .undef => false
  | .null => false
  | .bool b => b
  | .num n => n != 0
  | .str s => s != ""

/-- JS property assignment `obj[k] = v` on an insertion-ordered mapping:
if `k` is already a key, its value is replaced in place (the key keeps its
original position); otherwise the pair is appended at the end. -/
def upsert (k : String) (v : α) : List (String × α) → List (String × α)
  | [] => [(k, v)]
  | (k₂, v₂) :: rest => if k₂ = k then (k, v) :: rest else (k₂, v₂) :: upsert k v rest

/-- JS property read `obj[k]`: the value at the first occurrence of key `k`. -/
def lookup (k : String) : List (String × α) → Option α
  | [] => none
  | (k₂, v₂) :: rest => if k₂ = k then some v₂ else lookup k rest

/-- `addSystem(name, label, description, external = false)` of `src/store.js`:
`store.systems[name] = { label, description, external: Boolean(external) }`.
The `save(store)` call only touches the filesystem and is not modelled. -/
def addSystem (st : Store) (name label description : String)
    (external : JSValue := JSValue.bool false) : Store :=
  { st with
    systems := upsert name
      { label := label, description := description, external := external.truthy }
      st.systems }

/-- `addPerson(name, label, description = '')` of `src/store.js`:
`store.people[name] = { label, description }`. -/
def addPerson (st : Store) (name label : String) (description : String := "") : Store :=
  { st with
    people := upsert name { label := label, description := description } st.people }

/-- `addRelationship(from, to, label)` of `src/store.js`: filter out every
relationship with the same `(from, to)` pair, then push `{ from, to, label }`. -/
def addRelationship (st : Store) (f t label : String) : Store :=
  { st with
    relationships :=
      (st.relationships.filter fun r => !(r.«from» == f && r.«to» == t)).concat
        { «from» := f, «to» := t, label := label } }

/-- `getArchitectureData()` of `src/store.js`: rebuilds every entry
(`{ ...v }` object spread on each system, person and relationship) so callers
never receive a reference into the store.  In this value-semantics model the
spread is the identity on each entry's fields. -/
def getArchitectureData (st : Store) : Store :=
  { systems := st.systems.map fun (k, v) =>
      (k, { label := v.label, description := v.description, external := v.external }),
    people := st.people.map fun (k, v) =>
      (k, { label := v.label, description := v.description }),
    relationships := st.relationships.map fun r =>
      { «from» := r.«from», «to» := r.«to», label := r.label } }

/-- Rendering of one system entry in `getArchitectureAsText` of `src/store.js`:
`` `${s.label} (${s.external ? 'external' : 'internal'}) — ${s.description}` ``. -/
def summarySystemEntry (s : System) : String :=
  s.label ++ " (" ++ (if s.external then "external" else "internal") ++ ") — " ++ s.description

/-- Rendering of one person entry in `getArchitectureAsText` of `src/store.js`:
`` `${p.label}${p.description ? ` — ${p.description}` : ''}` `` (the JS
conditional tests string truthiness: empty description is falsy). -/
def summaryPersonEntry (p : Person) : String :=
  p.label ++ (if p.description != "" then " — " ++ p.description else "")

/-- Rendering of one relationship entry in `getArchitectureAsText` of
`src/store.js`: `` `${r.from} → ${r.to} "${r.label}"` ``. -/
def summaryRelationshipEntry (r : Relationship) : String :=
  r.«from» ++ " → " ++ r.«to» ++ " \"" ++ r.label ++ "\""

/-- `getArchitectureAsText()` of `src/store.js`: `null` (here `none`) when
systems, people and relationships are all empty; otherwise the non-empty
section lines, in the order Systems, People, Relationships, joined by
newlines, each section pipe-separating its entries. -/
def getArchitectureAsText (st : Store) : Option String :=
  if st.systems.isEmpty && st.people.isEmpty && st.relationships.isEmpty then
    none
  else
    let lines : List String :=
      (if st.systems.isEmpty then [] else
        ["Systems: " ++ String.intercalate " | "
          (st.systems.map fun e => summarySystemEntry e.2)]) ++
      (if st.people.isEmpty then [] else
        ["People: " ++ String.intercalate " | "
          (st.people.map fun e => summaryPersonEntry e.2)]) ++
      (if st.relationships.isEmpty then [] else
        ["Relationships: " ++ String.intercalate " | "
          (st.relationships.map summaryRelationshipEntry)])
    some (String.intercalate "\n" lines)

/-- The fixed preamble of `generatePlantUML` in `src/index.js`. -/
def plantumlHeader : List String :=
  ["@startuml",
   "!include https://raw.githubusercontent.com/plantuml-stdlib/C4-PlantUML/master/C4_Context.puml",
   "",
   "title System Context Diagram",
   ""]

/-- One `Person(key, "label", "description")` line of `generatePlantUML`. -/
def plantumlPersonLine (e : String × Person) : String :=
  "Person(" ++ e.1 ++ ", \"" ++ e.2.label ++ "\", \"" ++ e.2.description ++ "\")"

/-- One `System(...)` / `System_Ext(...)` line of `generatePlantUML`. -/
def plantumlSystemLine (e : String × System) : String :=
  (if e.2.external then "System_Ext" else "System") ++
    "(" ++ e.1 ++ ", \"" ++ e.2.label ++ "\", \"" ++ e.2.description ++ "\")"

/-- One `Rel(from, to, "label")` line of `generatePlantUML`. -/
def plantumlRelLine (r : Relationship) : String :=
  "Rel(" ++ r.«from» ++ ", " ++ r.«to» ++ ", \"" ++ r.label ++ "\")"

/-- `generatePlantUML(systems, people, relationships)` of `src/index.js`:
preamble, person lines, system lines, then (only when there are
relationships) a blank line and the relationship lines, then a blank line
and `@enduml`, joined by newlines. -/
def generatePlantUML (systems : List (String × System)) (people : List (String × Person))
    (relationships : List Relationship) : String :=
  let lines := plantumlHeader
  let lines := lines ++ people.map plantumlPersonLine
  let lines := lines ++ systems.map plantumlSystemLine
  let lines := if relationships.isEmpty then lines else
    lines ++ [""] ++ relationships.map plantumlRelLine
  let lines := lines ++ ["", "@enduml"]
  String.intercalate "\n" lines

/-- One indented `Person(...)` line of `generateMermaid` in `src/index.js`. -/
def mermaidPersonLine (e : String × Person) : String :=
  "  Person(" ++ e.1 ++ ", \"" ++ e.2.label ++ "\", \"" ++ e.2.description ++ "\")"

/-- One indented `System(...)` / `System_Ext(...)` line of `generateMermaid`. -/
def mermaidSystemLine (e : String × System) : String :=
  "  " ++ (if e.2.external then "System_Ext" else "System") ++
    "(" ++ e.1 ++ ", \"" ++ e.2.label ++ "\", \"" ++ e.2.description ++ "\")"

/-- One indented `Rel(...)` line of `generateMermaid`. -/
def mermaidRelLine (r : Relationship) : String :=
  "  Rel(" ++ r.«from» ++ ", " ++ r.«to» ++ ", \"" ++ r.label ++ "\")"

/-- `generateMermaid(systems, people, relationships)` of `src/index.js`:
the `C4Context` root line, then indented person, system and relationship
lines, joined by newlines. -/
def generateMermaid (systems : List (String × System)) (people : List (String × Person))
    (relationships : List Relationship) : String :=
  let lines := ["C4Context"]
  let lines := lines ++ people.map mermaidPersonLine
  let lines := lines ++ systems.map mermaidSystemLine
  let lines := lines ++ relationships.map mermaidRelLine
  String.intercalate "\n" lines

/-- The fixed opening lines of `generateLikeC4` in `src/index.js`
(`specification` block and the `model {` opener). -/
def likec4Header : List String :=
  ["specification \x7b",
   "  element system",
   "  element person",
   "\x7d",
   "",
   "model \x7b"]

/-- The fixed closing lines of `generateLikeC4` (`model` close and the
`views` block). -/
def likec4Footer : List String :=
  ["\x7d", "", "views \x7b", "  view index \x7b", "    include *", "  \x7d", "\x7d"]

/-- The three lines of one person block of `generateLikeC4`. -/
def likec4PersonBlock (e : String × Person) : List String :=
  ["  person " ++ e.1 ++ " \x27" ++ e.2.label ++ "\x27 \x7b",
   "    description \x27" ++ e.2.description ++ "\x27",
   "  \x7d"]

/-- The lines of one system block of `generateLikeC4` (external systems get
an extra `tag external` line). -/
def likec4SystemBlock (e : String × System) : List String :=
  ["  system " ++ e.1 ++ " \x27" ++ e.2.label ++ "\x27 \x7b",
   "    description \x27" ++ e.2.description ++ "\x27"] ++
  (if e.2.external then ["    tag external"] else []) ++
  ["  \x7d"]

/-- One `from -> to 'label'` line of `generateLikeC4`. -/
def likec4RelLine (r : Relationship) : String :=
  "  " ++ r.«from» ++ " -> " ++ r.«to» ++ " \x27" ++ r.label ++ "\x27"

/-- The full line list built by `generateLikeC4` of `src/index.js` before the
final `lines.join('\n')`. -/
def likec4Lines (systems : List (String × System)) (people : List (String × Person))
    (relationships : List Relationship) : List String :=
  let lines := likec4Header
  let lines := lines ++ people.flatMap likec4PersonBlock
  let lines := lines ++ systems.flatMap likec4SystemBlock
  let lines := lines ++ relationships.map likec4RelLine
  lines ++ likec4Footer

/-- `generateLikeC4(systems, people, relationships)` of `src/index.js`:
specification block, model block with person blocks, system blocks and
relationship lines, then the views block, joined by newlines. -/
def generateLikeC4 (systems : List (String × System)) (people : List (String × Person))
    (relationships : List Relationship) : String :=
  String.intercalate "\n" (likec4Lines systems people relationships)

/-- `remember_system.execute` of `src/index.js`: `try { addSystem(...) }
catch { /* silent */ } return 'Noted.'`.  The outcome of the wrapped store
call (which could in principle throw) is passed in as an `Except`; the
`catch` discards it either way. -/
def rememberSystemExecute (op : Except String Store) : String :=
  match op with
  | .ok _ => "Noted."
  | .error _ => "Noted."

/-- `remember_person.execute` of `src/index.js`: same try/catch shape around
`addPerson`, always returning `'Noted.'`. -/
def rememberPersonExecute (op : Except String Store) : String :=
  match op with
  | .ok _ => "Noted."
  | .error _ => "Noted."

/-- `remember_relationship.execute` of `src/index.js`: same try/catch shape
around `addRelationship`, always returning `'Noted.'`. -/
def rememberRelationshipExecute (op : Except String Store) : String :=
  match op with
  | .ok _ => "Noted."
  | .error _ => "Noted."

/-- `generate_diagram.execute({ format = 'plantuml' } = {})` of
`src/index.js`.  `data` is the outcome of `getArchitectureData()` (an
`Except.error e` models a thrown exception with message `e`, caught by the
`catch (err)` branch); `format` is `none` when the argument is absent.
Dispatch: `mermaid`, `likec4`, anything else falls through to PlantUML. -/
def generateDiagramExecute (data : Except String Store) (format : Option String) : String :=
  match data with
  | .error e => "Error generating diagram: " ++ e
  | .ok st =>
    let fmt := format.getD "plantuml"
    if fmt = "mermaid" then generateMermaid st.systems st.people st.relationships
    else if fmt = "likec4" then generateLikeC4 st.systems st.people st.relationships
    else generatePlantUML st.systems st.people st.relationships

/-- A parsed JSON value, the possible result of `JSON.parse` in `load()` of
`src/store.js` (numbers as integers; no graph data involves floats). -/
inductive Json where
  | null : Json
  | bool (b : Bool) : Json
  | num (n : Int) : Json
  | str (s : String) : Json
  | arr (elems : List Json) : Json
  | obj (fields : List (String × Json)) : Json

/-- The JSON value of `emptyStore()`:
`{ systems: {}, people: {}, relationships: [] }`. -/
def emptyStoreJson : Json :=
  Json.obj [("systems", Json.obj []), ("people", Json.obj []), ("relationships", Json.arr [])]

/-- `load()` of `src/store.js`: `try { return JSON.parse(readFileSync(...)) }
catch { return emptyStore() }`.  The argument models the outcome of reading
and parsing the durable file: `none` when the file is missing or unreadable
or its content is not syntactically valid JSON (those paths throw and are
caught); `some j` when parsing succeeds, in which case the parsed value is
returned verbatim, whatever its shape. -/
def load (content : Option Json) : Json :=
  match content with
  | none => emptyStoreJson
  | some j => j

/-- Modelled from the spec (§6, durable storage format): whether a JSON value
is a well-formed graph `{ systems: { key: { label: str, description: str,
external: bool } }, people: { key: { label: str, description: str } },
relationships: [ { from: str, to: str, label: str } ] }`.  The repository has
no such validator; this definition only interprets the claim's phrase
"well-formed graph". -/
def isWellFormedGraph : Json → Bool
  | Json.obj [("systems", Json.obj sys), ("people", Json.obj ppl),
      ("relationships", Json.arr rels)] =>
    sys.all (fun e =>
      match e.2 with
      | Json.obj [("label", Json.str _), ("description", Json.str _),
          ("external", Json.bool _)] => true
      | _ => false) &&
    ppl.all (fun e =>
      match e.2 with
      | Json.obj [("label", Json.str _), ("description", Json.str _)] => true
      | _ => false) &&
    rels.all (fun r =>
      match r with
      | Json.obj [("from", Json.str _), ("to", Json.str _), ("label", Json.str _)] => true
      | _ => false)
  | _ => false

/-! ## Spec-side definitions

`getSummaryTextSpec` is written from the spec's words (claim C2), to be
compared with `getArchitectureAsText`, which is translated from
`src/store.js`. -/

/-- Spec wording: a system entry reads `<label> (external|internal) — <description>`. -/
def specSystemEntry (s : System) : String :=
  s.label ++ " (" ++ (if s.external then "external" else "internal") ++ ") — " ++ s.description

/-- Spec wording: a person entry reads `<label>[ — <description>]`, the
description segment omitted when the description is empty. -/
def specPersonEntry (p : Person) : String :=
  if p.description = "" then p.label else p.label ++ " — " ++ p.description

/-- Spec wording: a relationship entry reads `<from> → <to> "<label>"`. -/
def specRelationshipEntry (r : Relationship) : String :=
  r.«from» ++ " → " ++ r.«to» ++ " \"" ++ r.label ++ "\""

/-- Spec wording: the Systems section line is present iff the systems
collection is non-empty, with entries pipe-separated. -/
def specSystemsLine (st : Store) : Option String :=
  if st.systems = [] then none
  else some ("Systems: " ++ String.intercalate " | " (st.systems.map fun e => specSystemEntry e.2))

/-- Spec wording: the People section line, present iff people is non-empty. -/
def specPeopleLine (st : Store) : Option String :=
  if st.people = [] then none
  else some ("People: " ++ String.intercalate " | " (st.people.map fun e => specPersonEntry e.2))

/-- Spec wording: the Relationships section line, present iff relationships
is non-empty. -/
def specRelationshipsLine (st : Store) : Option String :=
  if st.relationships = [] then none
  else some ("Relationships: " ++
    String.intercalate " | " (st.relationships.map specRelationshipEntry))

/-- `getSummaryText` as the spec describes it (claim C2): the empty sentinel
exactly when systems, people and relationships are all empty; otherwise the
present section lines in the fixed order Systems, People, Relationships,
joined by newlines. -/
def getSummaryTextSpec (st : Store) : Option String :=
  if st.systems = [] ∧ st.people = [] ∧ st.relationships = [] then none
  else some (String.intercalate "\n"
    ([specSystemsLine st, specPeopleLine st, specRelationshipsLine st].reduceOption))

/-! ## Brace-balance machinery (claim C9) -/

/-- Running brace balance: `+1` on `{`, `-1` on `}`. -/
def braceStep (a : Int) (c : Char) : Int :=
  if c = '\x7b' then a + 1 else if c = '\x7d' then a - 1 else a

/-- Brace balance after a character sequence, starting from `a`. -/
def braceRun (a : Int) (cs : List Char) : Int :=
  cs.foldl braceStep a

/-- Minimum brace balance over all prefixes of a character sequence
(including the empty prefix, so the result is at most `a`). -/
def braceLow : Int → List Char → Int
  | a, [] => a
  | a, c :: cs => min a (braceLow (braceStep a c) cs)

/-- A string containing no brace characters. -/
def braceFree (s : String) : Bool :=
  s.data.all fun c => c != '\x7b' && c != '\x7d'

/-- Brace balance threaded through a list of lines. -/
def braceRunL (a : Int) (ls : List String) : Int :=
  ls.foldl (fun acc l => braceRun acc l.data) a

/-- Minimum brace balance over all line-and-character prefixes of a list of
lines. -/
def braceLowL : Int → List String → Int
  | a, [] => a
  | a, l :: ls => min (braceLow a l.data) (braceLowL (braceRun a l.data) ls)

/-! ## Helper lemmas about `upsert` and `lookup` -/

theorem lookup_upsert (k : String) (v : α) (m : List (String × α)) :
    lookup k (upsert k v m) = some v := by
  induction m with
  | nil => simp [upsert, lookup]
  | cons e rest ih =>
    obtain ⟨k₂, v₂⟩ := e
    by_cases h : k₂ = k <;> simp [upsert, lookup, h, ih]

theorem upsert_upsert (k : String) (v₁ v₂ : α) (m : List (String × α)) :
    upsert k v₂ (upsert k v₁ m) = upsert k v₂ m := by
  induction m with
  | nil => simp [upsert]
  | cons e rest ih =>
    obtain ⟨k₂, v₂'⟩ := e
    by_cases h : k₂ = k <;> simp [upsert, h, ih]

theorem countP_upsert (k : String) (v : α) (m : List (String × α))
    (h : m.countP (fun e => e.1 == k) ≤ 1) :
    (upsert k v m).countP (fun e => e.1 == k) = 1 := by
  induction m with
  | nil => simp [upsert]
  | cons e rest ih =>
    obtain ⟨k₂, v₂⟩ := e
    by_cases hk : k₂ = k
    · have hcount : rest.countP (fun e => e.1 == k) = 0 := by
        rw [List.countP_cons] at h
        have hb : ((k₂, v₂).1 == k) = true := by simpa using hk
        rw [hb] at h
        simpa using h
      simp only [upsert, if_pos hk]
      rw [List.countP_cons, hcount]
      simp
    · have hb : ((k₂, v₂).1 == k) = false := by simpa using hk
      simp only [upsert, if_neg hk]
      rw [List.countP_cons] at h ⊢
      simp [hb] at h ⊢
      exact ih h

theorem keyCount_le_one_of_nodup (k : String) (m : List (String × α))
    (h : (m.map Prod.fst).Nodup) :
    m.countP (fun e => e.1 == k) ≤ 1 := by
  have he : m.countP (fun e => e.1 == k) = (m.map Prod.fst).count k := by
    show _ = (m.map Prod.fst).countP (· == k)
    rw [List.countP_map]
    rfl
  rw [he]
  exact List.nodup_iff_count_le_one.mp h k

/-! ## Claim theorems -/

/-- C10: `addSystem` stores `external: Boolean(external)` — a strict boolean
that is `true` exactly when the supplied JS value is truthy, and `false`
when the argument is omitted (default `false`). -/
theorem addSystem_external_is_truthiness (st : Store) (n l d : String) (v : JSValue) :
    lookup n (addSystem st n l d v).systems =
      some { label := l, description := d, external := v.truthy } ∧
    lookup n (addSystem st n l d).systems =
      some { label := l, description := d, external := false } := by
  constructor
  · simp [addSystem, lookup_upsert]
  · simp [addSystem, lookup_upsert, JSValue.truthy]

/-- C7: re-adding a system key overwrites the prior entry entirely: the
systems mapping afterwards has exactly one entry for the key and its fields
are the later values; the analogous property holds for `addPerson`. -/
theorem addSystem_addPerson_overwrite (st : Store) (k l₁ d₁ l₂ d₂ p₁ q₁ p₂ q₂ : String)
    (e₁ e₂ : JSValue)
    (hsys : (st.systems.map Prod.fst).Nodup) (hppl : (st.people.map Prod.fst).Nodup) :
    (lookup k (addSystem (addSystem st k l₁ d₁ e₁) k l₂ d₂ e₂).systems =
        some { label := l₂, description := d₂, external := e₂.truthy } ∧
      (addSystem (addSystem st k l₁ d₁ e₁) k l₂ d₂ e₂).systems.countP
        (fun e => e.1 == k) = 1) ∧
    (lookup k (addPerson (addPerson st k p₁ q₁) k p₂ q₂).people =
        some { label := p₂, description := q₂ } ∧
      (addPerson (addPerson st k p₁ q₁) k p₂ q₂).people.countP
        (fun e => e.1 == k) = 1) := by
  refine ⟨⟨?_, ?_⟩, ?_, ?_⟩
  · simp [addSystem, upsert_upsert, lookup_upsert]
  · simp only [addSystem, upsert_upsert]
    exact countP_upsert _ _ _ (keyCount_le_one_of_nodup _ _ hsys)
  · simp [addPerson, upsert_upsert, lookup_upsert]
  · simp only [addPerson, upsert_upsert]
    exact countP_upsert _ _ _ (keyCount_le_one_of_nodup _ _ hppl)

/-- C7 witness: instantiation at the empty store and concrete values. -/
theorem addSystem_addPerson_overwrite_witness :
    (lookup "svc" (addSystem (addSystem emptyStore "svc" "Old" "od" (JSValue.bool false))
        "svc" "New" "nd" (JSValue.bool true)).systems =
      some { label := "New", description := "nd", external := true } ∧
      (addSystem (addSystem emptyStore "svc" "Old" "od" (JSValue.bool false))
        "svc" "New" "nd" (JSValue.bool true)).systems.countP
        (fun e => e.1 == "svc") = 1) ∧
    (lookup "svc" (addPerson (addPerson emptyStore "svc" "Old" "od") "svc" "New" "nd").people =
      some { label := "New", description := "nd" } ∧
      (addPerson (addPerson emptyStore "svc" "Old" "od") "svc" "New" "nd").people.countP
        (fun e => e.1 == "svc") = 1) :=
  addSystem_addPerson_overwrite emptyStore "svc" "Old" "od" "New" "nd" "Old" "od" "New" "nd"
    (JSValue.bool false) (JSValue.bool true) (by decide) (by decide)

/-- C1 counterexample: the claim as stated is false when `from = to`.  On a
store whose only relationship is `("a", "a", "old")`, calling
`addRelationship("a", "a", "new")` removes that relationship, although its
pair equals the swapped pair `(to, from) = ("a", "a")` of the call — so "a
relationship with the swapped pair is never removed" fails at this input. -/
theorem addRelationship_swapped_pair_cex :
    Relationship.mk "a" "a" "old" ∉
      (addRelationship (Store.mk [] [] [Relationship.mk "a" "a" "old"]) "a" "a" "new").relationships := by
  decide

/-- C1 (amended): after `addRelationship(from, to, label)` exactly one
relationship with pair `(from, to)` exists, namely the new entry, and it is
the last element; every relationship with the swapped pair `(to, from)` is
preserved provided `from ≠ to` (when `from = to` the two pairs coincide and
the entry is replaced). -/
theorem addRelationship_dedup_append (st : Store) (f t l : String) :
    ((addRelationship st f t l).relationships.filter
        fun r => r.«from» == f && r.«to» == t) = [Relationship.mk f t l] ∧
    (addRelationship st f t l).relationships.getLast? = some (Relationship.mk f t l) ∧
    (f ≠ t → ∀ r ∈ st.relationships, r.«from» = t → r.«to» = f →
      r ∈ (addRelationship st f t l).relationships) := by
  refine ⟨?_, ?_, ?_⟩
  · simp only [addRelationship, List.concat_eq_append, List.filter_append,
      List.filter_filter]
    have h1 : ∀ r : Relationship,
        ((r.«from» == f && r.«to» == t) && !(r.«from» == f && r.«to» == t)) = false := by
      intro r
      cases (r.«from» == f && r.«to» == t) <;> rfl
    rw [List.filter_congr (fun r _ => h1 r)]
    simp
  · simp [addRelationship, List.getLast?_concat]
  · intro hne r hr hfrom hto
    simp only [addRelationship, List.concat_eq_append, List.mem_append]
    left
    rw [List.mem_filter]
    refine ⟨hr, ?_⟩
    have : (r.«from» == f) = false := by
      rw [hfrom]
      simpa using fun h => hne h.symm
    simp [this]

/-- C1 witness: the amended claim at a concrete store holding the swapped
relationship `("b", "a")`, with the call `addRelationship("a", "b", "l")`. -/
theorem addRelationship_dedup_append_witness :
    ((addRelationship (Store.mk [] [] [Relationship.mk "b" "a" "x"]) "a" "b" "l").relationships.filter
        fun r => r.«from» == "a" && r.«to» == "b") = [Relationship.mk "a" "b" "l"] ∧
    (addRelationship (Store.mk [] [] [Relationship.mk "b" "a" "x"]) "a" "b" "l").relationships.getLast? =
      some (Relationship.mk "a" "b" "l") ∧
    Relationship.mk "b" "a" "x" ∈
      (addRelationship (Store.mk [] [] [Relationship.mk "b" "a" "x"]) "a" "b" "l").relationships := by
  have h := addRelationship_dedup_append
    (Store.mk [] [] [Relationship.mk "b" "a" "x"]) "a" "b" "l"
  exact ⟨h.1, h.2.1, h.2.2 (by decide) (Relationship.mk "b" "a" "x") (by decide) rfl rfl⟩

/-- C4: an unrecognized or absent format identifier makes `generate_diagram`
return exactly what the explicit `plantuml` format returns on the same
state. -/
theorem generateDiagram_unrecognized_fallback (st : Store) (fmt : Option String)
    (h : fmt = none ∨ ∃ s, fmt = some s ∧
      s ∉ (["plantuml", "mermaid", "likec4"] : List String)) :
    generateDiagramExecute (Except.ok st) fmt =
      generateDiagramExecute (Except.ok st) (some "plantuml") := by
  rcases h with h | ⟨s, rfl, hs⟩
  · subst h
    rfl
  · simp only [List.mem_cons, List.mem_singleton] at hs
    push_neg at hs
    obtain ⟨-, h2, h3⟩ := hs
    simp [generateDiagramExecute, Option.getD, h2, h3]

/-- C4 witness: the format string `"bogus"` on the empty store. -/
theorem generateDiagram_unrecognized_fallback_witness :
    generateDiagramExecute (Except.ok emptyStore) (some "bogus") =
      generateDiagramExecute (Except.ok emptyStore) (some "plantuml") :=
  generateDiagram_unrecognized_fallback emptyStore (some "bogus")
    (Or.inr ⟨"bogus", rfl, by decide⟩)

/-- C5 counterexample: content that is syntactically valid JSON but not a
well-formed graph — here the JSON array `[]` — is returned by `load`
verbatim, not replaced by the empty graph. -/
theorem load_valid_json_not_graph_cex :
    isWellFormedGraph (Json.arr []) = false ∧
    load (some (Json.arr [])) ≠ emptyStoreJson := by
  refine ⟨rfl, ?_⟩
  intro h
  rw [load, emptyStoreJson] at h
  exact Json.noConfusion h

/-- C5 (amended): `load` yields the empty graph exactly on the failure paths
it catches — a missing or unreadable file or content that is not
syntactically valid JSON (modelled as `none`); content that parses to any
JSON value is returned verbatim, even when it is not a well-formed graph,
and no error is surfaced (`load` is total).  The empty-graph fallback is
itself a well-formed graph. -/
theorem load_failure_yields_empty_graph :
    load none = emptyStoreJson ∧
    (∀ j : Json, load (some j) = j) ∧
    isWellFormedGraph emptyStoreJson = true :=
  ⟨rfl, fun _ => rfl, rfl⟩

/-- C6: the three `remember_*` tools return the string `"Noted."` for every
outcome of the wrapped store call, including a thrown exception; and
`generate_diagram` returns either one of the three diagram strings or an
`"Error generating diagram: ..."` message, never propagating the
exception. -/
theorem tools_always_return_strings (op data : Except String Store) (fmt : Option String) :
    rememberSystemExecute op = "Noted." ∧
    rememberPersonExecute op = "Noted." ∧
    rememberRelationshipExecute op = "Noted." ∧
    ((∃ st, data = Except.ok st ∧
        (generateDiagramExecute data fmt =
            generatePlantUML st.systems st.people st.relationships ∨
          generateDiagramExecute data fmt =
            generateMermaid st.systems st.people st.relationships ∨
          generateDiagramExecute data fmt =
            generateLikeC4 st.systems st.people st.relationships)) ∨
      (∃ e, data = Except.error e ∧
        generateDiagramExecute data fmt = "Error generating diagram: " ++ e)) := by
  refine ⟨?_, ?_, ?_, ?_⟩
  · cases op <;> rfl
  · cases op <;> rfl
  · cases op <;> rfl
  · cases data with
    | error e => exact Or.inr ⟨e, rfl, rfl⟩
    | ok st =>
      refine Or.inl ⟨st, rfl, ?_⟩
      by_cases h1 : fmt.getD "plantuml" = "mermaid"
      · right
        left
        simp [generateDiagramExecute, h1]
      · by_cases h2 : fmt.getD "plantuml" = "likec4"
        · right
          right
          simp [generateDiagramExecute, h1, h2]
        · left
          simp [generateDiagramExecute, h1, h2]

theorem specSystemEntry_eq : specSystemEntry = summarySystemEntry := rfl

theorem specRelationshipEntry_eq : specRelationshipEntry = summaryRelationshipEntry := rfl

theorem specPersonEntry_eq : specPersonEntry = summaryPersonEntry := by
  funext p
  by_cases h : p.description = "" <;>
    simp [specPersonEntry, summaryPersonEntry, h, String.append_assoc]

/-- C2: `getArchitectureAsText` behaves exactly as the spec describes: the
empty sentinel iff systems, people and relationships are all empty;
otherwise the section lines in the fixed order Systems, People,
Relationships, each present iff its collection is non-empty, entries
pipe-separated, systems as `label (external|internal) — description`,
people as `label[ — description]` with the segment omitted for an empty
description, relationships as `from → to "label"`. -/
theorem getArchitectureAsText_matches_spec (st : Store) :
    getArchitectureAsText st = getSummaryTextSpec st := by
  obtain ⟨sys, ppl, rels⟩ := st
  cases sys <;> cases ppl <;> cases rels <;>
    simp [getArchitectureAsText, getSummaryTextSpec, specSystemsLine, specPeopleLine,
      specRelationshipsLine, specSystemEntry_eq, specPersonEntry_eq, specRelationshipEntry_eq,
      List.reduceOption_cons_of_some, List.reduceOption_nil]

/-- C3: each renderer emits the person declarations (in insertion order of
the people mapping), then the system declarations (in insertion order of the
systems mapping), then the relationship lines, between its fixed
header/footer material. -/
theorem renderers_emit_people_systems_relationships
    (s : List (String × System)) (p : List (String × Person)) (r : List Relationship) :
    generatePlantUML s p r = String.intercalate "\n"
      (plantumlHeader ++ p.map plantumlPersonLine ++ s.map plantumlSystemLine ++
        (if r.isEmpty then [] else "" :: r.map plantumlRelLine) ++ ["", "@enduml"]) ∧
    generateMermaid s p r = String.intercalate "\n"
      ("C4Context" :: (p.map mermaidPersonLine ++ s.map mermaidSystemLine ++
        r.map mermaidRelLine)) ∧
    generateLikeC4 s p r = String.intercalate "\n"
      (likec4Header ++ p.flatMap likec4PersonBlock ++ s.flatMap likec4SystemBlock ++
        r.map likec4RelLine ++ likec4Footer) := by
  refine ⟨?_, ?_, ?_⟩
  · cases r <;> simp [generatePlantUML]
  · simp [generateMermaid]
  · simp [generateLikeC4, likec4Lines]

/-! ## Brace-balance lemmas (claim C9) -/

theorem braceRun_nil (a : Int) : braceRun a [] = a := rfl

theorem braceRun_cons (a : Int) (c : Char) (cs : List Char) :
    braceRun a (c :: cs) = braceRun (braceStep a c) cs := rfl

theorem braceRun_append (a : Int) (xs ys : List Char) :
    braceRun a (xs ++ ys) = braceRun (braceRun a xs) ys := by
  simp [braceRun, List.foldl_append]

theorem braceStep_shift (a : Int) (c : Char) : braceStep a c = a + braceStep 0 c := by
  by_cases h1 : c = '\x7b'
  · simp [braceStep, h1]
  · by_cases h2 : c = '\x7d'
    · simp [braceStep, h1, h2]
      omega
    · simp [braceStep, h1, h2]

theorem braceRun_shift (xs : List Char) : ∀ a : Int, braceRun a xs = a + braceRun 0 xs := by
  induction xs with
  | nil => intro a; simp [braceRun]
  | cons c cs ih =>
    intro a
    rw [braceRun_cons, braceRun_cons, ih (braceStep a c), ih (braceStep 0 c),
      braceStep_shift a c]
    omega

theorem braceLow_nil (a : Int) : braceLow a [] = a := rfl

theorem braceLow_cons (a : Int) (c : Char) (cs : List Char) :
    braceLow a (c :: cs) = min a (braceLow (braceStep a c) cs) := rfl

theorem braceLow_le_self (a : Int) (xs : List Char) : braceLow a xs ≤ a := by
  cases xs with
  | nil => exact le_refl a
  | cons c cs => exact min_le_left _ _

theorem braceLow_shift (xs : List Char) : ∀ a : Int, braceLow a xs = a + braceLow 0 xs := by
  induction xs with
  | nil => intro a; simp [braceLow]
  | cons c cs ih =>
    intro a
    rw [braceLow_cons, braceLow_cons, ih (braceStep a c), ih (braceStep 0 c),
      braceStep_shift a c]
    omega

theorem braceLow_append (xs : List Char) :
    ∀ (a : Int) (ys : List Char),
      braceLow a (xs ++ ys) = min (braceLow a xs) (braceLow (braceRun a xs) ys) := by
  induction xs with
  | nil =>
    intro a ys
    simp only [List.nil_append, braceLow_nil, braceRun_nil]
    exact (min_eq_right (braceLow_le_self a ys)).symm
  | cons c cs ih =>
    intro a ys
    simp only [List.cons_append, braceLow_cons, braceRun_cons, ih (braceStep a c) ys]
    rw [min_assoc]

theorem braceLow_le_run_of_prefix (p xs : List Char) (a : Int) (h : p <+: xs) :
    braceLow a xs ≤ braceRun a p := by
  obtain ⟨t, rfl⟩ := h
  rw [braceLow_append]
  exact le_trans (min_le_right _ _) (braceLow_le_self _ _)

theorem braceRun_eq_counts (xs : List Char) :
    ∀ a : Int, braceRun a xs =
      a + (xs.count '\x7b' : Int) - (xs.count '\x7d' : Int) := by
  induction xs with
  | nil => intro a; simp [braceRun]
  | cons c cs ih =>
    intro a
    rw [braceRun_cons, ih (braceStep a c)]
    by_cases h1 : c = '\x7b'
    · simp [braceStep, h1, List.count_cons]
      omega
    · by_cases h2 : c = '\x7d'
      · simp [braceStep, h1, h2, List.count_cons]
        omega
      · simp [braceStep, h1, h2, List.count_cons]

theorem brace_neutral (cs : List Char) (h : ∀ c ∈ cs, c ≠ '\x7b' ∧ c ≠ '\x7d') :
    ∀ a : Int, braceRun a cs = a ∧ braceLow a cs = a := by
  induction cs with
  | nil => intro a; exact ⟨rfl, rfl⟩
  | cons c cs ih =>
    intro a
    have hc := h c (List.mem_cons_self c cs)
    have hstep : braceStep a c = a := by simp [braceStep, hc.1, hc.2]
    have ih' := ih (fun c hm => h c (List.mem_cons_of_mem _ hm)) a
    rw [braceRun_cons, braceLow_cons, hstep]
    exact ⟨ih'.1, by rw [ih'.2]; exact min_self a⟩

theorem braceFree_chars (s : String) (h : braceFree s = true) :
    ∀ c ∈ s.data, c ≠ '\x7b' ∧ c ≠ '\x7d' := by
  intro c hc
  have := List.all_eq_true.mp h c hc
  constructor
  · intro he
    subst he
    simp at this
  · intro he
    subst he
    simp at this

theorem braceFree_neutral (s : String) (h : braceFree s = true) (a : Int) :
    braceRun a s.data = a ∧ braceLow a s.data = a :=
  brace_neutral s.data (braceFree_chars s h) a

theorem braceRunL_nil (a : Int) : braceRunL a [] = a := rfl

theorem braceRunL_cons (a : Int) (l : String) (ls : List String) :
    braceRunL a (l :: ls) = braceRunL (braceRun a l.data) ls := rfl

theorem braceRunL_append (a : Int) (xs ys : List String) :
    braceRunL a (xs ++ ys) = braceRunL (braceRunL a xs) ys := by
  simp [braceRunL, List.foldl_append]

theorem braceRunL_shift (ls : List String) : ∀ a : Int, braceRunL a ls = a + braceRunL 0 ls := by
  induction ls with
  | nil => intro a; simp [braceRunL]
  | cons l ls ih =>
    intro a
    rw [braceRunL_cons, braceRunL_cons, ih (braceRun a l.data), ih (braceRun 0 l.data),
      braceRun_shift l.data a]
    omega

theorem braceLowL_nil (a : Int) : braceLowL a [] = a := rfl

theorem braceLowL_cons (a : Int) (l : String) (ls : List String) :
    braceLowL a (l :: ls) = min (braceLow a l.data) (braceLowL (braceRun a l.data) ls) := rfl

theorem braceLowL_le_self (a : Int) (ls : List String) : braceLowL a ls ≤ a := by
  cases ls with
  | nil => exact le_refl a
  | cons l ls => exact le_trans (min_le_left _ _) (braceLow_le_self _ _)

theorem braceLowL_shift (ls : List String) : ∀ a : Int, braceLowL a ls = a + braceLowL 0 ls := by
  induction ls with
  | nil => intro a; simp [braceLowL]
  | cons l ls ih =>
    intro a
    rw [braceLowL_cons, braceLowL_cons, ih (braceRun a l.data), ih (braceRun 0 l.data),
      braceRun_shift l.data a, braceLow_shift l.data a]
    omega

theorem braceLowL_append (xs : List String) :
    ∀ (a : Int) (ys : List String),
      braceLowL a (xs ++ ys) = min (braceLowL a xs) (braceLowL (braceRunL a xs) ys) := by
  induction xs with
  | nil =>
    intro a ys
    simp only [List.nil_append, braceLowL_nil, braceRunL_nil]
    exact (min_eq_right (braceLowL_le_self a ys)).symm
  | cons l ls ih =>
    intro a ys
    simp only [List.cons_append, braceLowL_cons, braceRunL_cons, ih (braceRun a l.data) ys]
    rw [min_assoc]

theorem intercalate_go_data (sep : String) :
    ∀ (bs : List String) (acc : String),
      (String.intercalate.go acc sep bs).data =
        acc.data ++ bs.flatMap (fun b => sep.data ++ b.data) := by
  intro bs
  induction bs with
  | nil => intro acc; simp [String.intercalate.go]
  | cons b bs ih =>
    intro acc
    rw [String.intercalate.go, ih (acc ++ sep ++ b)]
    simp

theorem intercalate_data (sep : String) (x : String) (xs : List String) :
    (String.intercalate sep (x :: xs)).data =
      x.data ++ xs.flatMap (fun b => sep.data ++ b.data) := by
  rw [String.intercalate, intercalate_go_data]

theorem newline_step (a : Int) : braceStep a '\n' = a := rfl

theorem braceRun_newline_flat (xs : List String) :
    ∀ a : Int, braceRun a (xs.flatMap fun b => '\n' :: b.data) = braceRunL a xs := by
  induction xs with
  | nil => intro a; rfl
  | cons b bs ih =>
    intro a
    rw [List.flatMap_cons, List.cons_append, braceRun_cons, newline_step,
      braceRun_append, ih, braceRunL_cons]

theorem braceLow_newline_flat (xs : List String) :
    ∀ a : Int, braceLow a (xs.flatMap fun b => '\n' :: b.data) = braceLowL a xs := by
  induction xs with
  | nil => intro a; rfl
  | cons b bs ih =>
    intro a
    rw [List.flatMap_cons, List.cons_append, braceLow_cons, newline_step,
      braceLow_append, ih, braceLowL_cons]
    have hle : min (braceLow a b.data) (braceLowL (braceRun a b.data) bs) ≤ a :=
      le_trans (min_le_left _ _) (braceLow_le_self _ _)
    exact min_eq_right hle

theorem braceRun_intercalate (ls : List String) (a : Int) :
    braceRun a (String.intercalate "\n" ls).data = braceRunL a ls := by
  cases ls with
  | nil => rfl
  | cons x xs =>
    rw [intercalate_data, braceRun_append]
    have hflat : (xs.flatMap fun b => ("\n" : String).data ++ b.data) =
        xs.flatMap fun b => '\n' :: b.data := by
      simp
    rw [hflat, braceRun_newline_flat, braceRunL_cons]

theorem braceLow_intercalate (ls : List String) (a : Int) :
    braceLow a (String.intercalate "\n" ls).data = braceLowL a ls := by
  cases ls with
  | nil => rfl
  | cons x xs =>
    rw [intercalate_data, braceLow_append]
    have hflat : (xs.flatMap fun b => ("\n" : String).data ++ b.data) =
        xs.flatMap fun b => '\n' :: b.data := by
      simp
    rw [hflat, braceLow_newline_flat, braceLowL_cons]

theorem braceFree_run (s : String) (h : braceFree s = true) (a : Int) :
    braceRun a s.data = a :=
  (braceFree_neutral s h a).1

theorem braceFree_low (s : String) (h : braceFree s = true) (a : Int) :
    braceLow a s.data = a :=
  (braceFree_neutral s h a).2

theorem openSeg_run (a : Int) : braceRun a "\x27 \x7b".data = a + 1 := by
  have h : braceRun 0 "\x27 \x7b".data = 1 := by decide
  rw [braceRun_shift "\x27 \x7b".data a, h]

theorem openSeg_low (a : Int) : braceLow a "\x27 \x7b".data = a := by
  have h : braceLow 0 "\x27 \x7b".data = 0 := by decide
  rw [braceLow_shift "\x27 \x7b".data a, h]
  omega

theorem closeLine_run (a : Int) : braceRun a "  \x7d".data = a - 1 := by
  have h : braceRun 0 "  \x7d".data = -1 := by decide
  rw [braceRun_shift "  \x7d".data a, h]
  omega

theorem closeLine_low (a : Int) : braceLow a "  \x7d".data = a - 1 := by
  have h : braceLow 0 "  \x7d".data = -1 := by decide
  rw [braceLow_shift "  \x7d".data a, h]
  omega

theorem openLine_run (pre k lbl : String) (hpre : braceFree pre = true)
    (hk : braceFree k = true) (hl : braceFree lbl = true) (a : Int) :
    braceRun a (pre ++ k ++ " \x27" ++ lbl ++ "\x27 \x7b").data = a + 1 := by
  simp only [String.data_append, braceRun_append]
  rw [braceFree_run pre hpre, braceFree_run k hk, braceFree_run " \x27" (by decide),
    braceFree_run lbl hl, openSeg_run]

theorem openLine_low (pre k lbl : String) (hpre : braceFree pre = true)
    (hk : braceFree k = true) (hl : braceFree lbl = true) (a : Int) :
    braceLow a (pre ++ k ++ " \x27" ++ lbl ++ "\x27 \x7b").data = a := by
  simp only [String.data_append, braceLow_append, braceRun_append]
  rw [braceFree_run pre hpre, braceFree_run k hk, braceFree_run " \x27" (by decide),
    braceFree_run lbl hl, braceFree_low pre hpre, braceFree_low k hk,
    braceFree_low " \x27" (by decide), braceFree_low lbl hl, openSeg_low]
  omega

theorem descLine_run (d : String) (hd : braceFree d = true) (a : Int) :
    braceRun a ("    description \x27" ++ d ++ "\x27").data = a := by
  simp only [String.data_append, braceRun_append]
  rw [braceFree_run "    description \x27" (by decide), braceFree_run d hd,
    braceFree_run "\x27" (by decide)]

theorem descLine_low (d : String) (hd : braceFree d = true) (a : Int) :
    braceLow a ("    description \x27" ++ d ++ "\x27").data = a := by
  simp only [String.data_append, braceLow_append, braceRun_append]
  rw [braceFree_run "    description \x27" (by decide), braceFree_run d hd,
    braceFree_low "    description \x27" (by decide), braceFree_low d hd,
    braceFree_low "\x27" (by decide)]
  omega

theorem relLine_run (r : Relationship) (hf : braceFree r.«from» = true)
    (ht : braceFree r.«to» = true) (hl : braceFree r.label = true) (a : Int) :
    braceRun a (likec4RelLine r).data = a := by
  simp only [likec4RelLine, String.data_append, braceRun_append]
  rw [braceFree_run "  " (by decide), braceFree_run _ hf, braceFree_run " -> " (by decide),
    braceFree_run _ ht, braceFree_run " \x27" (by decide), braceFree_run _ hl,
    braceFree_run "\x27" (by decide)]

theorem relLine_low (r : Relationship) (hf : braceFree r.«from» = true)
    (ht : braceFree r.«to» = true) (hl : braceFree r.label = true) (a : Int) :
    braceLow a (likec4RelLine r).data = a := by
  simp only [likec4RelLine, String.data_append, braceLow_append, braceRun_append]
  rw [braceFree_run "  " (by decide), braceFree_run _ hf, braceFree_run " -> " (by decide),
    braceFree_run _ ht, braceFree_run " \x27" (by decide), braceFree_run _ hl,
    braceFree_low "  " (by decide), braceFree_low _ hf, braceFree_low " -> " (by decide),
    braceFree_low _ ht, braceFree_low " \x27" (by decide), braceFree_low _ hl,
    braceFree_low "\x27" (by decide)]
  omega

theorem personBlock_run (e : String × Person) (hk : braceFree e.1 = true)
    (hl : braceFree e.2.label = true) (hd : braceFree e.2.description = true) (a : Int) :
    braceRunL a (likec4PersonBlock e) = a := by
  simp only [likec4PersonBlock, braceRunL_cons, braceRunL_nil]
  rw [openLine_run _ _ _ (by decide) hk hl, descLine_run _ hd, closeLine_run]
  omega

theorem personBlock_low (e : String × Person) (hk : braceFree e.1 = true)
    (hl : braceFree e.2.label = true) (hd : braceFree e.2.description = true) (a : Int) :
    braceLowL a (likec4PersonBlock e) = a := by
  simp only [likec4PersonBlock, braceLowL_cons, braceLowL_nil]
  rw [openLine_run _ _ _ (by decide) hk hl, openLine_low _ _ _ (by decide) hk hl,
    descLine_run _ hd, descLine_low _ hd, closeLine_run, closeLine_low]
  omega

theorem systemBlock_run (e : String × System) (hk : braceFree e.1 = true)
    (hl : braceFree e.2.label = true) (hd : braceFree e.2.description = true) (a : Int) :
    braceRunL a (likec4SystemBlock e) = a := by
  cases hx : e.2.external
  · simp only [likec4SystemBlock, hx, Bool.false_eq_true, if_false, List.cons_append,
      List.nil_append, braceRunL_cons, braceRunL_nil]
    rw [openLine_run _ _ _ (by decide) hk hl, descLine_run _ hd, closeLine_run]
    omega
  · simp only [likec4SystemBlock, hx, if_true, List.cons_append, List.nil_append,
      braceRunL_cons, braceRunL_nil]
    rw [openLine_run _ _ _ (by decide) hk hl, descLine_run _ hd,
      braceFree_run "    tag external" (by decide), closeLine_run]
    omega

theorem systemBlock_low (e : String × System) (hk : braceFree e.1 = true)
    (hl : braceFree e.2.label = true) (hd : braceFree e.2.description = true) (a : Int) :
    braceLowL a (likec4SystemBlock e) = a := by
  cases hx : e.2.external
  · simp only [likec4SystemBlock, hx, Bool.false_eq_true, if_false, List.cons_append,
      List.nil_append, braceLowL_cons, braceLowL_nil]
    rw [openLine_run _ _ _ (by decide) hk hl, openLine_low _ _ _ (by decide) hk hl,
      descLine_run _ hd, descLine_low _ hd, closeLine_run, closeLine_low]
    omega
  · simp only [likec4SystemBlock, hx, if_true, List.cons_append, List.nil_append,
      braceLowL_cons, braceLowL_nil]
    rw [openLine_run _ _ _ (by decide) hk hl, openLine_low _ _ _ (by decide) hk hl,
      descLine_run _ hd, descLine_low _ hd,
      braceFree_run "    tag external" (by decide),
      braceFree_low "    tag external" (by decide), closeLine_run, closeLine_low]
    omega

theorem personBlocks_run (p : List (String × Person))
    (h : ∀ e ∈ p, braceFree e.1 = true ∧ braceFree e.2.label = true ∧
      braceFree e.2.description = true) :
    ∀ a : Int, braceRunL a (p.flatMap likec4PersonBlock) = a := by
  induction p with
  | nil => intro a; rfl
  | cons e es ih =>
    intro a
    have he := h e (List.mem_cons_self e es)
    rw [List.flatMap_cons, braceRunL_append, personBlock_run e he.1 he.2.1 he.2.2,
      ih (fun x hx => h x (List.mem_cons_of_mem _ hx))]

theorem personBlocks_low (p : List (String × Person))
    (h : ∀ e ∈ p, braceFree e.1 = true ∧ braceFree e.2.label = true ∧
      braceFree e.2.description = true) :
    ∀ a : Int, braceLowL a (p.flatMap likec4PersonBlock) = a := by
  induction p with
  | nil => intro a; rfl
  | cons e es ih =>
    intro a
    have he := h e (List.mem_cons_self e es)
    rw [List.flatMap_cons, braceLowL_append, personBlock_run e he.1 he.2.1 he.2.2,
      personBlock_low e he.1 he.2.1 he.2.2,
      ih (fun x hx => h x (List.mem_cons_of_mem _ hx))]
    omega

theorem systemBlocks_run (s : List (String × System))
    (h : ∀ e ∈ s, braceFree e.1 = true ∧ braceFree e.2.label = true ∧
      braceFree e.2.description = true) :
    ∀ a : Int, braceRunL a (s.flatMap likec4SystemBlock) = a := by
  induction s with
  | nil => intro a; rfl
  | cons e es ih =>
    intro a
    have he := h e (List.mem_cons_self e es)
    rw [List.flatMap_cons, braceRunL_append, systemBlock_run e he.1 he.2.1 he.2.2,
      ih (fun x hx => h x (List.mem_cons_of_mem _ hx))]

theorem systemBlocks_low (s : List (String × System))
    (h : ∀ e ∈ s, braceFree e.1 = true ∧ braceFree e.2.label = true ∧
      braceFree e.2.description = true) :
    ∀ a : Int, braceLowL a (s.flatMap likec4SystemBlock) = a := by
  induction s with
  | nil => intro a; rfl
  | cons e es ih =>
    intro a
    have he := h e (List.mem_cons_self e es)
    rw [List.flatMap_cons, braceLowL_append, systemBlock_run e he.1 he.2.1 he.2.2,
      systemBlock_low e he.1 he.2.1 he.2.2,
      ih (fun x hx => h x (List.mem_cons_of_mem _ hx))]
    omega

theorem relLines_run (r : List Relationship)
    (h : ∀ x ∈ r, braceFree x.«from» = true ∧ braceFree x.«to» = true ∧
      braceFree x.label = true) :
    ∀ a : Int, braceRunL a (r.map likec4RelLine) = a := by
  induction r with
  | nil => intro a; rfl
  | cons x xs ih =>
    intro a
    have hx := h x (List.mem_cons_self x xs)
    rw [List.map_cons, braceRunL_cons, relLine_run x hx.1 hx.2.1 hx.2.2,
      ih (fun y hy => h y (List.mem_cons_of_mem _ hy))]

theorem relLines_low (r : List Relationship)
    (h : ∀ x ∈ r, braceFree x.«from» = true ∧ braceFree x.«to» = true ∧
      braceFree x.label = true) :
    ∀ a : Int, braceLowL a (r.map likec4RelLine) = a := by
  induction r with
  | nil => intro a; rfl
  | cons x xs ih =>
    intro a
    have hx := h x (List.mem_cons_self x xs)
    rw [List.map_cons, braceLowL_cons, relLine_run x hx.1 hx.2.1 hx.2.2,
      relLine_low x hx.1 hx.2.1 hx.2.2,
      ih (fun y hy => h y (List.mem_cons_of_mem _ hy))]
    omega

theorem header_run (a : Int) : braceRunL a likec4Header = a + 1 := by
  have h : braceRunL 0 likec4Header = 1 := by decide
  rw [braceRunL_shift likec4Header a, h]

theorem header_low (a : Int) : braceLowL a likec4Header = a := by
  have h : braceLowL 0 likec4Header = 0 := by decide
  rw [braceLowL_shift likec4Header a, h]
  omega

theorem footer_run (a : Int) : braceRunL a likec4Footer = a - 1 := by
  have h : braceRunL 0 likec4Footer = -1 := by decide
  rw [braceRunL_shift likec4Footer a, h]
  omega

theorem footer_low (a : Int) : braceLowL a likec4Footer = a - 1 := by
  have h : braceLowL 0 likec4Footer = -1 := by decide
  rw [braceLowL_shift likec4Footer a, h]
  omega

theorem runL_lowL_append_eq (xs ys : List String) (a b c la lb m : Int)
    (hx : braceRunL a xs = b) (hlx : braceLowL a xs = la)
    (hy : braceRunL b ys = c) (hly : braceLowL b ys = lb)
    (hm : min la lb = m) :
    braceRunL a (xs ++ ys) = c ∧ braceLowL a (xs ++ ys) = m := by
  rw [braceRunL_append, braceLowL_append, hx, hlx, hy, hly, hm]
  exact ⟨rfl, rfl⟩

theorem likec4Lines_run_low (s : List (String × System)) (p : List (String × Person))
    (r : List Relationship)
    (hs : ∀ e ∈ s, braceFree e.1 = true ∧ braceFree e.2.label = true ∧
      braceFree e.2.description = true)
    (hp : ∀ e ∈ p, braceFree e.1 = true ∧ braceFree e.2.label = true ∧
      braceFree e.2.description = true)
    (hr : ∀ x ∈ r, braceFree x.«from» = true ∧ braceFree x.«to» = true ∧
      braceFree x.label = true) :
    braceRunL 0 (likec4Lines s p r) = 0 ∧ braceLowL 0 (likec4Lines s p r) = 0 := by
  have hA_run : braceRunL 0 likec4Header = 1 := by
    have := header_run 0
    omega
  have hA_low : braceLowL 0 likec4Header = 0 := header_low 0
  have hAB := runL_lowL_append_eq likec4Header (p.flatMap likec4PersonBlock) 0 1 1 0 1 0
    hA_run hA_low (personBlocks_run p hp 1) (personBlocks_low p hp 1) (by omega)
  have hABC := runL_lowL_append_eq _ (s.flatMap likec4SystemBlock) 0 1 1 0 1 0
    hAB.1 hAB.2 (systemBlocks_run s hs 1) (systemBlocks_low s hs 1) (by omega)
  have hABCD := runL_lowL_append_eq _ (r.map likec4RelLine) 0 1 1 0 1 0
    hABC.1 hABC.2 (relLines_run r hr 1) (relLines_low r hr 1) (by omega)
  have hE_run : braceRunL 1 likec4Footer = 0 := by
    have := footer_run 1
    omega
  have hE_low : braceLowL 1 likec4Footer = 0 := by
    have := footer_low 1
    omega
  have hAll := runL_lowL_append_eq _ likec4Footer 0 1 0 0 0 0
    hABCD.1 hABCD.2 hE_run hE_low (by omega)
  simpa only [likec4Lines] using hAll

/-- C9 counterexample: the claim as stated fails for inputs whose text
contains a brace — `generateLikeC4` interpolates labels verbatim, so a
system labelled `"{"` produces a document with more `{` than `}`. -/
theorem generateLikeC4_unbalanced_cex :
    (generateLikeC4 [("a", System.mk "\x7b" "" false)] [] []).data.count '\x7b' ≠
      (generateLikeC4 [("a", System.mk "\x7b" "" false)] [] []).data.count '\x7d' := by
  decide

/-- C9 (amended): for every input triple whose keys, labels, descriptions
and relationship endpoints contain no brace characters, the LikeC4 output
has balanced braces — equally many `{` and `}` — and no prefix of the
document closes more blocks than it has opened. -/
theorem generateLikeC4_braces_balanced (s : List (String × System))
    (p : List (String × Person)) (r : List Relationship)
    (hs : ∀ e ∈ s, braceFree e.1 = true ∧ braceFree e.2.label = true ∧
      braceFree e.2.description = true)
    (hp : ∀ e ∈ p, braceFree e.1 = true ∧ braceFree e.2.label = true ∧
      braceFree e.2.description = true)
    (hr : ∀ x ∈ r, braceFree x.«from» = true ∧ braceFree x.«to» = true ∧
      braceFree x.label = true) :
    (generateLikeC4 s p r).data.count '\x7b' = (generateLikeC4 s p r).data.count '\x7d' ∧
    ∀ pre, pre <+: (generateLikeC4 s p r).data →
      pre.count '\x7d' ≤ pre.count '\x7b' := by
  have h := likec4Lines_run_low s p r hs hp hr
  have hrun : braceRun 0 (generateLikeC4 s p r).data = 0 := by
    rw [generateLikeC4, braceRun_intercalate]
    exact h.1
  have hlow : braceLow 0 (generateLikeC4 s p r).data = 0 := by
    rw [generateLikeC4, braceLow_intercalate]
    exact h.2
  constructor
  · have hc := braceRun_eq_counts (generateLikeC4 s p r).data 0
    rw [hrun] at hc
    omega
  · intro pre hpre
    have h1 : braceLow 0 (generateLikeC4 s p r).data ≤ braceRun 0 pre :=
      braceLow_le_run_of_prefix pre _ 0 hpre
    rw [hlow] at h1
    have h2 := braceRun_eq_counts pre 0
    omega

/-- C9 witness: the amended claim at a concrete brace-free graph with one
external system, one person and one relationship (the prefix property is
instantiated at the whole document). -/
theorem generateLikeC4_braces_balanced_witness :
    (generateLikeC4 [("api", System.mk "API" "Core" true)] [("user", Person.mk "User" "")]
        [Relationship.mk "user" "api" "uses"]).data.count '\x7b' =
      (generateLikeC4 [("api", System.mk "API" "Core" true)] [("user", Person.mk "User" "")]
        [Relationship.mk "user" "api" "uses"]).data.count '\x7d' ∧
    (generateLikeC4 [("api", System.mk "API" "Core" true)] [("user", Person.mk "User" "")]
        [Relationship.mk "user" "api" "uses"]).data.count '\x7d' ≤
      (generateLikeC4 [("api", System.mk "API" "Core" true)] [("user", Person.mk "User" "")]
        [Relationship.mk "user" "api" "uses"]).data.count '\x7b' := by
  have h := generateLikeC4_braces_balanced [("api", System.mk "API" "Core" true)]
    [("user", Person.mk "User" "")] [Relationship.mk "user" "api" "uses"]
    (by decide) (by decide) (by decide)
  exact ⟨h.1, h.2 _ (List.prefix_refl _)⟩

end ArchPlugin
